import Mathlib

/-!
Shallow embedding of the `bookshelf_app` PDF/EPUB library monitor
(`pdf_library_monitor`): the per-document processing pipeline of
`workflow.py`, the text extractors of `pdf_processor.py` and
`ebook_processor.py`, and the stabilization loop of `watcher.py`.

External collaborator calls (OCR, LLM, filesystem operations) are modelled
as explicit outcome parameters (`Except String _` values in an environment
record), and the filesystem as a partial map from paths to file contents.
-/

namespace Bookshelf

/-! ### String helpers (Python `str.strip`, `re.sub` filtering, `"/".join`, slicing) -/

/-- Python whitespace characters relevant to `str.strip()` (ASCII subset). -/
def isPyWs (c : Char) : Bool :=
  c == ' ' || c == '\t' || c == '\n' || c == '\r' || c == '\x0b' || c == '\x0c'

/-- The character class of `re.sub(r"[^A-Za-z0-9 _-]", "", ...)` in
`workflow._safe_label`: letters, digits, space, underscore, hyphen. -/
def allowedChar (c : Char) : Bool :=
  ('A' ≤ c && c ≤ 'Z') || ('a' ≤ c && c ≤ 'z') || ('0' ≤ c && c ≤ '9') ||
    c == ' ' || c == '_' || c == '-'

/-- Python `str.strip()` on a character list: drop leading and trailing
whitespace. -/
def pyStripList (l : List Char) : List Char :=
  List.rdropWhile isPyWs (List.dropWhile isPyWs l)

/-- Python `str.strip()` on strings. -/
def pyStrip (s : String) : String := String.mk (pyStripList s.data)

/-- `workflow._safe_label`:
`normalized = re.sub(r"[^A-Za-z0-9 _-]", "", label or "").strip()`;
`return normalized or "Uncategorized"`. -/
def safe_label (label : String) : String :=
  let stripped := pyStripList (label.data.filter allowedChar)
  if stripped.isEmpty then "Uncategorized" else String.mk stripped

/-- Python's `x or default` idiom on an optional string: `None` and the
empty string are both falsy. -/
def pyOrStr : Option String → String → String
  | none, d => d
  | some s, d => if s = "" then d else s

/-- Python `sep.join(parts)`. -/
def pyJoin (sep : String) : List String → String
  | [] => ""
  | [t] => t
  | t :: ts => t ++ sep ++ pyJoin sep ts

/-- Python slicing `s[:n]`. -/
def pyTake (s : String) (n : Nat) : String := String.mk (s.data.take n)

/-- `pathlib.Path(p).name`: the final path component — the characters
after the last `'/'` (the whole string when there is no slash). -/
def pathName (p : String) : String :=
  String.mk ((p.data.reverse.takeWhile (fun c => c != '/')).reverse)

/-! ### Data model (`models.py`) -/

/-- `DocType = Literal["pdf", "ebook"]`. -/
inductive DocType
  | pdf
  | ebook
deriving DecidableEq, Repr

/-- `Metadata` (`models.py`): all fields optional. -/
structure Metadata where
  title : Option String := none
  author : Option String := none
  subtitle : Option String := none
  short_description : Option String := none
deriving DecidableEq, Repr

/-- `Classification` (`models.py`): all fields optional; confidence is a
number in `[0, 1]`, modelled as a rational. -/
structure Classification where
  label : Option String := none
  confidence : Option Rat := none
  reason : Option String := none
deriving DecidableEq, Repr

/-- `Config` (`models.py`): the run configuration fields the pipeline reads. -/
structure Config where
  input_dir : String
  pdf_output_dir : String
  ebook_output_dir : String
  default_model : String := "llama3"
  metadata_model : Option String := none
  classification_model : Option String := none
  max_pages : Nat := 10
deriving DecidableEq, Repr

/-- `DocumentState` (`models.py`). An absent/`None` dict field and an empty
dict behave identically under the `state.get(...) or {}` accesses of
`workflow.py`, so both are modelled as `none`. -/
structure DocumentState where
  path : String
  doc_type : DocType
  config : Config
  raw_text_excerpt : Option String := none
  inferred_metadata : Option Metadata := none
  classification : Option Classification := none
  destination_path : Option String := none
  working_pdf_path : Option String := none
  errors : List String := []
  thread_id : Option String := none
deriving DecidableEq, Repr

/-- `models.make_initial_state`. -/
def make_initial_state (path : String) (doc_type : DocType) (config : Config) :
    DocumentState :=
  { path := path, doc_type := doc_type, config := config }

/-! ### PDF extraction (`pdf_processor.py`) -/

/-- File contents (the bytes of a file) are modelled as strings. -/
abbrev Content := String

/-- `pdf_processor._extract_text_from_pdf`: join the per-page texts of the
first `max_pages` pages with newlines.  A page is modelled by the string its
`page.extract_text() or ""` call produces (a page whose extraction raised
contributes `""`, exactly as in the `except` branch of the source). -/
def _extract_text_from_pdf (pages : List String) (max_pages : Nat) : String :=
  pyJoin "\n" (pages.take max_pages)

/-- The external collaborators of `extract_pdf_text_with_ocr_if_needed`:
the outcome of the `stirling.ocr_pdf` HTTP call, the temp path produced by
`tempfile.mkstemp`, and the page texts of the temp file once the OCR bytes
have been written to it. -/
structure StirlingOcr where
  ocr_pdf : Except String Content
  tmpPath : String
  ocrPages : Content → List String

/-- Result of `extract_pdf_text_with_ocr_if_needed`, instrumented with the
number of OCR calls performed and the temp-file write, so that "exactly
once" and "persisted to a temp file" are expressible. -/
structure OcrExtract where
  text : String
  working_pdf_path : String
  ocrCalls : Nat
  tmpWritten : Option (String × Content)
deriving DecidableEq, Repr

/-- `pdf_processor.extract_pdf_text_with_ocr_if_needed`: direct extraction
first; if the stripped text is shorter than `min_chars_threshold`, call OCR
once, persist the bytes to a temp file, and re-extract from that file.  An
OCR failure escapes (it is caught upstream in `extract_text_task`). -/
def extract_pdf_text_with_ocr_if_needed (env : StirlingOcr) (path : String)
    (pages : List String) (max_pages : Nat := 10)
    (min_chars_threshold : Nat := 500) : Except String OcrExtract :=
  let text := _extract_text_from_pdf pages max_pages
  if min_chars_threshold ≤ (pyStrip text).length then
    .ok ⟨text, path, 0, none⟩
  else
    match env.ocr_pdf with
    | .error e => .error e
    | .ok ocrBytes =>
      .ok ⟨_extract_text_from_pdf (env.ocrPages ocrBytes) max_pages,
           env.tmpPath, 1, some (env.tmpPath, ocrBytes)⟩

/-! ### EPUB extraction (`ebook_processor.py`) -/

/-- An item of the EPUB container: a document item carries the outcome of
decoding and soup-extracting its content (`.error` when that raised), any
other item kind is skipped. -/
inductive EpubItem
  | document (content : Except String String)
  | other
deriving Repr

/-- The accumulation loop of `extract_ebook_text`: append each successfully
extracted non-empty document text; after handling a document item, stop as
soon as the total accumulated length exceeds `maxChars`.  Failed items are
swallowed (`except` → `continue`). -/
def collectEbookTexts (maxChars : Nat) : List EpubItem → List String → List String
  | [], texts => texts
  | EpubItem.other :: rest, texts => collectEbookTexts maxChars rest texts
  | EpubItem.document (.error _) :: rest, texts => collectEbookTexts maxChars rest texts
  | EpubItem.document (.ok t) :: rest, texts =>
    let texts' := if t = "" then texts else texts ++ [t]
    if maxChars < (texts'.map String.length).sum then texts'
    else collectEbookTexts maxChars rest texts'

/-- `ebook_processor.extract_ebook_text`: join the collected texts with
blank lines and truncate the result to `max_chars`. -/
def extract_ebook_text (items : List EpubItem) (max_chars : Nat := 15000) : String :=
  let combined := pyJoin "\n\n" (collectEbookTexts max_chars items [])
  if max_chars < combined.length then pyTake combined max_chars else combined

/-! ### Filesystem model -/

/-- A filesystem: a partial map from paths to file contents.  Directories
are implicit. -/
abbrev FS := String → Option Content

/-- Point update of a filesystem (`none` deletes the file). -/
def fsUpdate (fs : FS) (p : String) (c : Option Content) : FS :=
  fun q => if q = p then c else fs q

/-! ### Pipeline stages (`workflow.py`) -/

/-- Outcomes of the external/OS calls one pipeline run performs, in source
order: the whole-extraction result (the value returned by
`extract_pdf_text_with_ocr_if_needed` or `extract_ebook_text`, or the
exception either raised), the two LLM calls, and the filesystem operations
of `finalize_file_task`.  `shutil.copy2`, the Stirling metadata rewrite and
`shutil.move` can each fail independently of the others. -/
structure PipeEnv where
  pdfExtract : Except String (String × String)
  ebookExtract : Except String String
  inferMetadata : Except String Metadata
  classify : Except String Classification
  mkdirCategory : Except String Unit
  copy : Except String Unit
  rewriteMeta : Except String Content
  mkdirProcessed : Except String Unit
  move : Except String Unit

/-- `f"extract_text_task error for {path}: {e}"`. -/
def extractErrMsg (path e : String) : String :=
  s!"extract_text_task error for {path}: {e}"

/-- `workflow.extract_text_task`: the whole body is inside one
`try/except Exception`, so a failure only appends a message. -/
def extract_text_task (env : PipeEnv) (state : DocumentState) : DocumentState :=
  match state.doc_type with
  | .pdf =>
    match env.pdfExtract with
    | .ok tw =>
      { state with raw_text_excerpt := some tw.1, working_pdf_path := some tw.2 }
    | .error e =>
      { state with errors := state.errors ++ [extractErrMsg state.path e] }
  | .ebook =>
    match env.ebookExtract with
    | .ok text => { state with raw_text_excerpt := some text }
    | .error e =>
      { state with errors := state.errors ++ [extractErrMsg state.path e] }

/-- `f"infer_metadata error for {state['path']}: {e}"`. -/
def inferErrMsg (path e : String) : String :=
  s!"infer_metadata error for {path}: {e}"

/-- `f"classify_document error for {state['path']}: {e}"`. -/
def classifyErrMsg (path e : String) : String :=
  s!"classify_document error for {path}: {e}"

/-- `workflow.infer_metadata_and_classify_task`: two independently guarded
calls; a metadata failure stores `{}`, a classification failure stores the
fixed fallback classification; a successful classification is sanitized
through `_safe_label` and its missing confidence defaulted to `0.5`. -/
def infer_metadata_and_classify_task (env : PipeEnv) (state : DocumentState) :
    DocumentState :=
  let state1 :=
    match env.inferMetadata with
    | .ok m => { state with inferred_metadata := some m }
    | .error e =>
      { state with errors := state.errors ++ [inferErrMsg state.path e],
                   inferred_metadata := some {} }
  match env.classify with
  | .ok c =>
    let label := safe_label (pyOrStr c.label "Uncategorized")
    { state1 with
      classification :=
        some { c with label := some label,
                      confidence := some (c.confidence.getD (1 / 2 : Rat)) } }
  | .error e =>
    { state1 with
      errors := state1.errors ++ [classifyErrMsg state1.path e],
      classification :=
        some { label := some "Uncategorized", confidence := some 0,
               reason := some "classification failed" } }

/-- The kind-specific output root chosen by `finalize_file_task` (and by the
classification branch of `infer_metadata_and_classify_task`). -/
def rootDirOf (state : DocumentState) : String :=
  match state.doc_type with
  | .pdf => state.config.pdf_output_dir
  | .ebook => state.config.ebook_output_dir

/-- `(state.get("classification") or {}).get("label")`. -/
def classificationLabelRaw (state : DocumentState) : Option String :=
  match state.classification with
  | none => none
  | some c => c.label

/-- The category directory name `finalize_file_task` computes:
`_safe_label(classification.get("label") or "Uncategorized")`. -/
def finalizeLabel (state : DocumentState) : String :=
  safe_label (pyOrStr (classificationLabelRaw state) "Uncategorized")

/-- `dest_path = category_dir / path.name` in `finalize_file_task`. -/
def destPathOf (state : DocumentState) : String :=
  rootDirOf state ++ "/" ++ finalizeLabel state ++ "/" ++ pathName state.path

/-- `processed_path = input_dir / "processed" / path.name`. -/
def processedPathOf (state : DocumentState) : String :=
  state.config.input_dir ++ "/processed/" ++ pathName state.path

/-- `f"Failed to copy {path} to {dest_path}: {e}"`. -/
def copyErrMsg (path dest e : String) : String :=
  s!"Failed to copy {path} to {dest}: {e}"

/-- `f"Failed to update metadata for {dest_path}: {e}"`. -/
def rewriteErrMsg (dest e : String) : String :=
  s!"Failed to update metadata for {dest}: {e}"

/-- `f"Failed to move original {path} to processed/: {e}"`. -/
def moveErrMsg (path e : String) : String :=
  s!"Failed to move original {path} to processed/: {e}"

/-- Result of one `finalize_file_task` run: the returned state, the
filesystem afterwards, and whether the move / metadata-rewrite operations
were reached (instrumentation for "the move is not attempted"). -/
structure FinalizeOutcome where
  state : DocumentState
  fs : FS
  moveAttempted : Bool
  rewriteAttempted : Bool

/-- `workflow.finalize_file_task`.  `category_dir.mkdir` (source line 140)
runs before any `try` block, so its failure escapes the stage as
`.error`.  The copy is guarded: on failure the task returns early with only
an error message appended.  The PDF metadata rewrite and the
move-to-processed are each guarded and non-fatal.  `destination_path` is
set exactly on the copy-success path. -/
def finalize_file_task (env : PipeEnv) (fs : FS) (state : DocumentState) :
    Except String FinalizeOutcome :=
  let dest := destPathOf state
  match env.mkdirCategory with
  | .error e => .error e
  | .ok _ =>
    match fs state.path, env.copy with
    | none, _ =>
      .ok ⟨{ state with
             errors := state.errors ++
               [copyErrMsg state.path dest "FileNotFoundError"] },
           fs, false, false⟩
    | some _, .error e =>
      .ok ⟨{ state with errors := state.errors ++ [copyErrMsg state.path dest e] },
           fs, false, false⟩
    | some c, .ok _ =>
      let fs1 := fsUpdate fs dest (some c)
      let rewriteStep : List String × FS × Bool :=
        match state.doc_type with
        | .ebook => (state.errors, fs1, false)
        | .pdf =>
          match env.rewriteMeta with
          | .ok newBytes => (state.errors, fsUpdate fs1 dest (some newBytes), true)
          | .error e => (state.errors ++ [rewriteErrMsg dest e], fs1, true)
      let errors2 := rewriteStep.1
      let fs2 := rewriteStep.2.1
      let moveStep : List String × FS × Bool :=
        match env.mkdirProcessed with
        | .error e => (errors2 ++ [moveErrMsg state.path e], fs2, false)
        | .ok _ =>
          match env.move with
          | .error e => (errors2 ++ [moveErrMsg state.path e], fs2, true)
          | .ok _ =>
            (errors2,
             fsUpdate (fsUpdate fs2 state.path none) (processedPathOf state)
               (fs2 state.path),
             true)
      .ok ⟨{ state with destination_path := some dest, errors := moveStep.1 },
           moveStep.2.1, moveStep.2.2, rewriteStep.2.2⟩

/-! ### Orchestrator and checkpoint resume (`workflow.process_document`,
`watcher._run_pipeline_for_file`) -/

/-- The three pipeline stages, in order. -/
inductive Stage
  | extract
  | infer_classify
  | finalize
deriving DecidableEq, Repr

/-- Modelled from the spec: the Checkpoint Store record, a durable
`{document identifier → last-completed stage, serialized DocumentState}`
mapping maintained by the checkpointer attached to `process_document`
(the checkpoint persistence itself lives in the `langgraph` library, not
under `src/`). -/
structure CheckpointRecord where
  lastStage : Stage
  snapshot : DocumentState

/-- Modelled from the spec: the stages whose completion the checkpoint
records (stages are strictly sequential, so a checkpoint at a stage implies
all earlier stages completed). -/
def completedStages : Option CheckpointRecord → List Stage
  | none => []
  | some ⟨.extract, _⟩ => [.extract]
  | some ⟨.infer_classify, _⟩ => [.extract, .infer_classify]
  | some ⟨.finalize, _⟩ => [.extract, .infer_classify, .finalize]

/-- Modelled from the spec: the stages a re-invocation still has to run
after resuming from a checkpoint. -/
def remainingStages : Option CheckpointRecord → List Stage
  | none => [.extract, .infer_classify, .finalize]
  | some ⟨.extract, _⟩ => [.infer_classify, .finalize]
  | some ⟨.infer_classify, _⟩ => [.finalize]
  | some ⟨.finalize, _⟩ => []

/-- Run one stage on a (state, filesystem) pair.  Only `finalize_file_task`
can let an exception escape (its unguarded `mkdir`). -/
def runStage (env : PipeEnv) : Stage → DocumentState × FS →
    Except String (DocumentState × FS)
  | .extract, sfs => .ok (extract_text_task env sfs.1, sfs.2)
  | .infer_classify, sfs => .ok (infer_metadata_and_classify_task env sfs.1, sfs.2)
  | .finalize, sfs =>
    match finalize_file_task env sfs.2 sfs.1 with
    | .error e => .error e
    | .ok out => .ok (out.state, out.fs)

/-- Run a list of stages in order, recording the stages actually executed
(an escaping exception stops the run after the stage that raised it). -/
def runStages (env : PipeEnv) : List Stage → DocumentState × FS →
    Except String (DocumentState × FS) × List Stage
  | [], sfs => (.ok sfs, [])
  | st :: rest, sfs =>
    match runStage env st sfs with
    | .error e => (.error e, [st])
    | .ok sfs' =>
      let r := runStages env rest sfs'
      (r.1, st :: r.2)

/-- `workflow.process_document`: the three stages in sequence on a fresh
invocation. -/
def process_document (env : PipeEnv) (fs : FS) (state : DocumentState) :
    Except String (DocumentState × FS) :=
  (runStages env [.extract, .infer_classify, .finalize] (state, fs)).1

/-- Modelled from the spec: the state a resumed run starts from — the
checkpointed snapshot when a checkpoint exists, the fresh initial state
otherwise. -/
def resumeStart (cp : Option CheckpointRecord) (state0 : DocumentState) :
    DocumentState :=
  match cp with
  | none => state0
  | some r => r.snapshot

/-- Modelled from the spec: re-invoking `process_document` with the same
thread id after a crash.  The checkpointer replays from the last persisted
stage: the run starts from the checkpointed snapshot and executes only the
remaining stages (this replay behaviour is implemented by the `langgraph`
checkpointer, not by code under `src/`).  The second component is the list
of stages executed by this invocation. -/
def process_document_resumed (env : PipeEnv) (fs : FS)
    (cp : Option CheckpointRecord) (state0 : DocumentState) :
    Except String (DocumentState × FS) × List Stage :=
  runStages env (remainingStages cp) (resumeStart cp state0, fs)

/-- `watcher._run_pipeline_for_file`: `thread_id = f"file-{path.name}"` —
the document identifier is a deterministic function of the file name. -/
def thread_id_for_file (path : String) : String := "file-" ++ pathName path

/-! ### Watcher stabilization (`watcher.NewFileHandler.on_created`) -/

/-- The polling loop of `on_created`: up to 10 samples of the file size;
`sizes i` is what the `i`-th `path.stat().st_size` call observes (`none`
means the file is gone, in which case `stat` raises `FileNotFoundError`).
`last_size` starts at `-1`; two equal consecutive samples mean stable. -/
def stabilizePoll (sizes : Nat → Option Nat) : Nat → Nat → Int → Except String Bool
  | 0, _, _ => .ok false
  | fuel + 1, i, last =>
    match sizes i with
    | none => .error "FileNotFoundError"
    | some size =>
      if (size : Int) = last then .ok true
      else stabilizePoll sizes fuel (i + 1) (size : Int)

/-- The stabilization check performed by `on_created`. -/
def on_created_stabilize (sizes : Nat → Option Nat) : Except String Bool :=
  stabilizePoll sizes 10 0 (-1)

/-- What one `on_created` dispatch does: either an exception escapes the
handler, or `_run_pipeline_for_file` is reached (with the stability flag
merely logged). -/
inductive OnCreatedOutcome
  | raised (e : String)
  | ran (stable : Bool)
deriving DecidableEq, Repr

/-- `watcher.NewFileHandler.on_created` for a supported, non-directory
path: the stabilization loop has no exception handling, so a
`FileNotFoundError` from `stat` escapes and the pipeline is never
invoked; otherwise the pipeline runs. -/
def on_created (sizes : Nat → Option Nat) : OnCreatedOutcome :=
  match on_created_stabilize sizes with
  | .error e => .raised e
  | .ok b => .ran b

/-! ### Lemmas about `_safe_label` -/

lemma pyStripList_sublist (l : List Char) : List.Sublist (pyStripList l) l :=
  ((List.rdropWhile_prefix _ _).sublist).trans (List.dropWhile_suffix _).sublist

lemma mem_of_mem_pyStripList {l : List Char} {c : Char} (h : c ∈ pyStripList l) :
    c ∈ l :=
  (pyStripList_sublist l).subset h

lemma dropWhile_pyStripList (l : List Char) :
    List.dropWhile isPyWs (pyStripList l) = pyStripList l := by
  rw [List.dropWhile_eq_self_iff]
  intro hl
  have hpre : pyStripList l <+: List.dropWhile isPyWs l :=
    List.rdropWhile_prefix _ _
  have h0 : 0 < (List.dropWhile isPyWs l).length :=
    Nat.lt_of_lt_of_le hl hpre.length_le
  have hget := List.IsPrefix.getElem hpre hl
  have hn := List.dropWhile_get_zero_not isPyWs l h0
  simp only [List.get_eq_getElem] at hn ⊢
  rw [hget]
  exact hn

lemma pyStripList_idem (l : List Char) :
    pyStripList (pyStripList l) = pyStripList l := by
  show List.rdropWhile isPyWs (List.dropWhile isPyWs (pyStripList l)) = pyStripList l
  rw [dropWhile_pyStripList]
  show List.rdropWhile isPyWs (List.rdropWhile isPyWs (List.dropWhile isPyWs l)) =
    pyStripList l
  rw [List.rdropWhile_idempotent]
  rfl

lemma safe_label_chars {s : String} {c : Char} (h : c ∈ (safe_label s).data) :
    allowedChar c = true := by
  unfold safe_label at h
  by_cases he : (pyStripList (s.data.filter allowedChar)).isEmpty
  · rw [if_pos he] at h
    have hall : ∀ x ∈ "Uncategorized".data, allowedChar x = true := by decide
    exact hall c h
  · rw [if_neg he] at h
    exact List.of_mem_filter (mem_of_mem_pyStripList h)

lemma safe_label_ne_empty (s : String) : safe_label s ≠ "" := by
  unfold safe_label
  by_cases he : (pyStripList (s.data.filter allowedChar)).isEmpty
  · rw [if_pos he]
    decide
  · rw [if_neg he]
    intro hcontra
    have hdata : pyStripList (s.data.filter allowedChar) = [] :=
      congrArg String.data hcontra
    rw [hdata] at he
    exact he rfl

lemma safe_label_Uncategorized : safe_label "Uncategorized" = "Uncategorized" := by
  decide

lemma safe_label_idem (s : String) : safe_label (safe_label s) = safe_label s := by
  by_cases he : (pyStripList (s.data.filter allowedChar)).isEmpty
  · have h1 : safe_label s = "Uncategorized" := by
      unfold safe_label
      rw [if_pos he]
    rw [h1, safe_label_Uncategorized]
  · have h1 : safe_label s = String.mk (pyStripList (s.data.filter allowedChar)) := by
      unfold safe_label
      rw [if_neg he]
    rw [h1]
    have hfilter :
        (pyStripList (s.data.filter allowedChar)).filter allowedChar =
          pyStripList (s.data.filter allowedChar) :=
      List.filter_eq_self.mpr fun a ha =>
        List.of_mem_filter (mem_of_mem_pyStripList ha)
    show (if (pyStripList ((pyStripList (s.data.filter allowedChar)).filter
        allowedChar)).isEmpty then "Uncategorized" else _) = _
    rw [hfilter, pyStripList_idem, if_neg he]

/-- The stripped-and-filtered character list underlying `safe_label`;
`safe_label` falls back to `"Uncategorized"` exactly when it is empty. -/
lemma safe_label_of_empty {s : String}
    (h : pyStripList (s.data.filter allowedChar) = []) :
    safe_label s = "Uncategorized" := by
  unfold safe_label
  rw [if_pos (by rw [h]; rfl)]

/-- The label the classification branch stores, as a function of the
classification call's outcome. -/
lemma infer_label_eq (env : PipeEnv) (state : DocumentState) :
    classificationLabelRaw (infer_metadata_and_classify_task env state) =
      some (match env.classify with
            | .ok c => safe_label (pyOrStr c.label "Uncategorized")
            | .error _ => "Uncategorized") := by
  cases hm : env.inferMetadata <;> cases hc : env.classify <;>
    simp [infer_metadata_and_classify_task, classificationLabelRaw, hm, hc]

/-! ### Shared concrete fixtures for witnesses and counterexamples -/

/-- A concrete run configuration. -/
def cfg0 : Config :=
  { input_dir := "in", pdf_output_dir := "pdfs", ebook_output_dir := "ebooks" }

/-- A concrete fresh PDF document state. -/
def stA : DocumentState := make_initial_state "in/a.pdf" DocType.pdf cfg0

/-- A concrete filesystem holding the source file of `stA`. -/
def fsA : FS := fun q => if q = "in/a.pdf" then some "PDFBYTES" else none

/-- An environment in which every external call succeeds. -/
def envAllOk : PipeEnv :=
  { pdfExtract := .ok ("some text", "in/a.pdf"), ebookExtract := .ok "some text",
    inferMetadata := .ok {}, classify := .ok { label := some "Math" },
    mkdirCategory := .ok (), copy := .ok (), rewriteMeta := .ok "REWRITTEN",
    mkdirProcessed := .ok (), move := .ok () }

/-! ### C6: OCR fallback policy of `extract_pdf_text_with_ocr_if_needed` -/

/-- C6: if direct extraction over the first `max_pages` pages yields
stripped text of length at least the threshold, no OCR call is made and the
original path is returned as canonical; below the threshold the OCR
collaborator is invoked exactly once, its bytes are persisted to the temp
file, and the returned excerpt is re-extracted from that temp file, which
becomes the canonical path. -/
theorem C6_ocr_fallback_policy :
    ∀ (env : StirlingOcr) (path : String) (pages : List String) (maxp thr : Nat),
      (thr ≤ (pyStrip (_extract_text_from_pdf pages maxp)).length →
        extract_pdf_text_with_ocr_if_needed env path pages maxp thr =
          .ok ⟨_extract_text_from_pdf pages maxp, path, 0, none⟩) ∧
      ((pyStrip (_extract_text_from_pdf pages maxp)).length < thr →
        ∀ ocrBytes, env.ocr_pdf = .ok ocrBytes →
          extract_pdf_text_with_ocr_if_needed env path pages maxp thr =
            .ok ⟨_extract_text_from_pdf (env.ocrPages ocrBytes) maxp,
                 env.tmpPath, 1, some (env.tmpPath, ocrBytes)⟩) := by
  intro env path pages maxp thr
  constructor
  · intro hlong
    unfold extract_pdf_text_with_ocr_if_needed
    rw [if_pos hlong]
  · intro hshort ocrBytes hocr
    unfold extract_pdf_text_with_ocr_if_needed
    rw [if_neg (Nat.not_le_of_lt hshort), hocr]

/-- Witness for C6: a two-character direct extraction (below the default
threshold 500) goes through OCR; a five-character one with threshold 3 does
not. -/
theorem C6_ocr_fallback_policy_witness :
    extract_pdf_text_with_ocr_if_needed
        ⟨.ok "OCRB", "/tmp/t1.ocr.pdf", fun b => [b]⟩ "in/a.pdf" ["hi"] 10 500 =
      .ok ⟨"OCRB", "/tmp/t1.ocr.pdf", 1, some ("/tmp/t1.ocr.pdf", "OCRB")⟩ ∧
    extract_pdf_text_with_ocr_if_needed
        ⟨.ok "OCRB", "/tmp/t1.ocr.pdf", fun b => [b]⟩ "in/a.pdf" ["hello"] 10 3 =
      .ok ⟨"hello", "in/a.pdf", 0, none⟩ :=
  ⟨(C6_ocr_fallback_policy ⟨.ok "OCRB", "/tmp/t1.ocr.pdf", fun b => [b]⟩
      "in/a.pdf" ["hi"] 10 500).2 (by decide) "OCRB" rfl,
   (C6_ocr_fallback_policy ⟨.ok "OCRB", "/tmp/t1.ocr.pdf", fun b => [b]⟩
      "in/a.pdf" ["hello"] 10 3).1 (by decide)⟩

/-! ### C7: stored classification labels are sanitized -/

/-- C7: every label stored on a document state by the inference stage
contains only letters, digits, space, `-`, `_` (it is computed by
`_safe_label`, i.e. by stripping all other characters and trimming), and
whenever the stripped-and-trimmed result is empty, or the raw label is
missing, the stored label is exactly `"Uncategorized"` (as it also is when
the classification call fails). -/
theorem C7_stored_label_sanitized :
    ∀ (env : PipeEnv) (state : DocumentState),
      (∃ l, classificationLabelRaw (infer_metadata_and_classify_task env state) =
          some l ∧ ∀ c ∈ l.data, allowedChar c = true) ∧
      (∀ craw, env.classify = .ok craw →
        classificationLabelRaw (infer_metadata_and_classify_task env state) =
          some (safe_label (pyOrStr craw.label "Uncategorized"))) ∧
      (∀ craw, env.classify = .ok craw → craw.label = none →
        classificationLabelRaw (infer_metadata_and_classify_task env state) =
          some "Uncategorized") ∧
      (∀ craw rawLabel, env.classify = .ok craw → craw.label = some rawLabel →
        pyStripList (rawLabel.data.filter allowedChar) = [] →
        classificationLabelRaw (infer_metadata_and_classify_task env state) =
          some "Uncategorized") ∧
      (∀ e, env.classify = .error e →
        classificationLabelRaw (infer_metadata_and_classify_task env state) =
          some "Uncategorized") := by
  intro env state
  have hall : ∀ c ∈ "Uncategorized".data, allowedChar c = true := by decide
  refine ⟨?_, ?_, ?_, ?_, ?_⟩
  · rw [infer_label_eq]
    cases hc : env.classify with
    | ok c =>
      exact ⟨safe_label (pyOrStr c.label "Uncategorized"), rfl,
        fun ch hch => safe_label_chars hch⟩
    | error e => exact ⟨"Uncategorized", rfl, hall⟩
  · intro craw hc
    rw [infer_label_eq, hc]
  · intro craw hc hnone
    rw [infer_label_eq, hc]
    show some (safe_label (pyOrStr craw.label "Uncategorized")) = some "Uncategorized"
    rw [hnone]
    show some (safe_label "Uncategorized") = some "Uncategorized"
    rw [safe_label_Uncategorized]
  · intro craw rawLabel hc hsome hempty
    rw [infer_label_eq, hc]
    show some (safe_label (pyOrStr craw.label "Uncategorized")) = some "Uncategorized"
    rw [hsome]
    show some (safe_label (if rawLabel = "" then "Uncategorized" else rawLabel)) =
      some "Uncategorized"
    by_cases hz : rawLabel = ""
    · rw [if_pos hz, safe_label_Uncategorized]
    · rw [if_neg hz, safe_label_of_empty hempty]
  · intro e hc
    rw [infer_label_eq, hc]

/-- Witness for C7: a successful classification whose raw label is
`"a!b"` is stored as `"ab"`; the sanitizer's output at that input. -/
theorem C7_stored_label_sanitized_witness :
    classificationLabelRaw
        (infer_metadata_and_classify_task
          { envAllOk with classify := .ok { label := some "a!b" } } stA) =
      some (safe_label (pyOrStr (some "a!b") "Uncategorized")) ∧
    safe_label (pyOrStr (some "a!b") "Uncategorized") = "ab" :=
  ⟨(C7_stored_label_sanitized
      { envAllOk with classify := .ok { label := some "a!b" } } stA).2.1
      { label := some "a!b" } rfl,
   by decide⟩

/-! ### C8: excerpt length bounds -/

lemma pyStripList_eq_self {l : List Char} (h : ∀ c ∈ l, isPyWs c = false) :
    pyStripList l = l := by
  unfold pyStripList
  have h1 : List.dropWhile isPyWs l = l := by
    rw [List.dropWhile_eq_self_iff]
    intro hl
    simp only [List.get_eq_getElem]
    rw [h _ (List.getElem_mem hl)]
    simp
  rw [h1, List.rdropWhile_eq_self_iff]
  intro hl
  rw [h _ (List.getLast_mem hl)]
  simp

/-- A 15001-character single-page PDF text. -/
def longPage : String := String.mk (List.replicate 15001 'a')

lemma longPage_length : longPage.length = 15001 := by
  show (List.replicate 15001 'a').length = 15001
  rw [List.length_replicate]

lemma pyStrip_longPage : pyStrip longPage = longPage := by
  show String.mk (pyStripList (List.replicate 15001 'a')) = longPage
  rw [pyStripList_eq_self]
  · rfl
  · intro c hc
    rw [List.eq_of_mem_replicate hc]
    rfl

/-- Counterexample to C8: a PDF whose single page carries 15001 characters
of real text takes the no-OCR path of `extract_pdf_text_with_ocr_if_needed`
(with the default threshold 500) and returns an excerpt of 15001 characters:
PDF extraction applies no max-excerpt truncation, so the excerpt is not
bounded by 15000. -/
theorem C8_counterexample :
    (extract_pdf_text_with_ocr_if_needed ⟨.ok "", "/tmp/t.ocr.pdf", fun _ => []⟩
        "in/big.pdf" [longPage] 10 500).map OcrExtract.text = .ok longPage ∧
    ¬ longPage.length ≤ 15000 := by
  constructor
  · have h : extract_pdf_text_with_ocr_if_needed
        ⟨.ok "", "/tmp/t.ocr.pdf", fun _ => []⟩ "in/big.pdf" [longPage] 10 500 =
        .ok ⟨longPage, "in/big.pdf", 0, none⟩ := by
      unfold extract_pdf_text_with_ocr_if_needed
      have htext : _extract_text_from_pdf [longPage] 10 = longPage := rfl
      rw [htext, if_pos (by rw [pyStrip_longPage, longPage_length]; omega)]
    rw [h]
    rfl
  · rw [longPage_length]
    omega

/-- C8 amended: EPUB extraction output is always bounded by `max_chars`
(default 15000); PDF extraction output is only bounded by the page budget —
it is the newline-join of the first `max_pages` page texts, and its length
is unbounded (it exceeds any character threshold for a suitable page). -/
theorem C8_amended_excerpt_bounds :
    (∀ (items : List EpubItem) (maxChars : Nat),
      (extract_ebook_text items maxChars).length ≤ maxChars) ∧
    (∀ n maxp : Nat, 0 < maxp →
      ∃ pages : List String, n < (_extract_text_from_pdf pages maxp).length) := by
  constructor
  · intro items maxChars
    unfold extract_ebook_text
    by_cases h : maxChars < (pyJoin "\n\n" (collectEbookTexts maxChars items [])).length
    · rw [if_pos h]
      show ((pyJoin "\n\n" (collectEbookTexts maxChars items [])).data.take
        maxChars).length ≤ maxChars
      rw [List.length_take]
      omega
    · rw [if_neg h]
      omega
  · intro n maxp hpos
    refine ⟨[String.mk (List.replicate (n + 1) 'a')], ?_⟩
    have h1 : _extract_text_from_pdf [String.mk (List.replicate (n + 1) 'a')] maxp =
        String.mk (List.replicate (n + 1) 'a') := by
      unfold _extract_text_from_pdf
      rw [List.take_of_length_le (by simpa using hpos)]
      rfl
    rw [h1]
    show n < (List.replicate (n + 1) 'a').length
    rw [List.length_replicate]
    omega

/-- Witness for C8 amended: a short EPUB extraction is within a bound of 3,
and a page longer than 5 characters exists for a 10-page budget. -/
theorem C8_amended_excerpt_bounds_witness :
    (extract_ebook_text [EpubItem.document (.ok "hello")] 3).length ≤ 3 ∧
    (0 < 10 ∧ ∃ pages : List String, 5 < (_extract_text_from_pdf pages 10).length) :=
  ⟨C8_amended_excerpt_bounds.1 [EpubItem.document (.ok "hello")] 3,
   by decide, C8_amended_excerpt_bounds.2 5 10 (by decide)⟩

/-! ### C9: a file deleted mid-poll -/

lemma stabilizePoll_error_iff_vanished {sizes : Nat → Option Nat} :
    ∀ (fuel i : Nat) (last : Int) (e : String),
      stabilizePoll sizes fuel i last = .error e →
      e = "FileNotFoundError" ∧ ∃ k, i ≤ k ∧ k < i + fuel ∧ sizes k = none := by
  intro fuel
  induction fuel with
  | zero =>
    intro i last e h
    simp [stabilizePoll] at h
  | succ m ih =>
    intro i last e h
    rw [stabilizePoll] at h
    cases hs : sizes i with
    | none =>
      rw [hs] at h
      refine ⟨by injection h with h'; exact h'.symm, i, Nat.le_refl i, by omega, hs⟩
    | some size =>
      rw [hs] at h
      have hif : (if (size : Int) = last then Except.ok true
          else stabilizePoll sizes m (i + 1) (size : Int)) = Except.error e := h
      by_cases heq : (size : Int) = last
      · rw [if_pos heq] at hif
        exact absurd hif (by simp)
      · rw [if_neg heq] at hif
        obtain ⟨he, k, hk1, hk2, hk3⟩ := ih (i + 1) size e hif
        exact ⟨he, k, by omega, by omega, hk3⟩

/-- C9 amended: the stabilization loop of `on_created` has no `vanished`
report.  The only exception its polling can raise is the
`FileNotFoundError` of `path.stat()` on a file deleted before one of the
(at most 10) polls; that exception escapes `on_created`, so
`_run_pipeline_for_file` is never reached — the file is skipped by virtue
of the escaping exception, not by a `vanished` result. -/
theorem C9_amended_deleted_file_raises :
    ∀ (sizes : Nat → Option Nat) (e : String),
      on_created_stabilize sizes = .error e →
      e = "FileNotFoundError" ∧ (∃ k, k < 10 ∧ sizes k = none) ∧
        on_created sizes = .raised "FileNotFoundError" := by
  intro sizes e h
  obtain ⟨he, k, _, hk2, hk3⟩ := stabilizePoll_error_iff_vanished 10 0 (-1) e h
  subst he
  refine ⟨rfl, ⟨k, by omega, hk3⟩, ?_⟩
  unfold on_created
  rw [show on_created_stabilize sizes = stabilizePoll sizes 10 0 (-1) from rfl] at h ⊢
  rw [h]

/-- A file observed once (size 100) and then deleted before the second
poll. -/
def sizesC9 : Nat → Option Nat := fun i => if i = 0 then some 100 else none

/-- Counterexample to C9: when the file vanishes between the first and the
second size poll, the detector does not report any value (`vanished` or
otherwise): `path.stat()` raises `FileNotFoundError`, which escapes
`on_created`, so no stabilization report exists and the pipeline is not
invoked. -/
theorem C9_counterexample :
    on_created_stabilize sizesC9 = .error "FileNotFoundError" ∧
      on_created sizesC9 = .raised "FileNotFoundError" := by
  constructor
  · rfl
  · rfl

/-- Witness for C9 amended, at the concrete vanishing-file trace. -/
theorem C9_amended_deleted_file_raises_witness :
    "FileNotFoundError" = "FileNotFoundError" ∧
      (∃ k, k < 10 ∧ sizesC9 k = none) ∧
      on_created sizesC9 = .raised "FileNotFoundError" :=
  C9_amended_deleted_file_raises sizesC9 "FileNotFoundError" rfl

/-! ### C10: idempotent, closed, non-empty sanitization -/

/-- C10: `_safe_label` is idempotent, always non-empty, and closed over the
safe character set; `finalize_file_task` recomputes the category directory
name with `_safe_label`, so for every input state — including one resumed
from a checkpoint with an arbitrary or missing stored label — the category
directory component of the destination is sanitized and non-empty, and any
destination the stage records has exactly that shape. -/
theorem C10_safe_label_idempotent_closed :
    (∀ x : String, safe_label (safe_label x) = safe_label x) ∧
    (∀ x : String, safe_label x ≠ "" ∧ ∀ c ∈ (safe_label x).data, allowedChar c = true) ∧
    (∀ s : DocumentState,
      finalizeLabel s ≠ "" ∧ ∀ c ∈ (finalizeLabel s).data, allowedChar c = true) ∧
    (∀ (env : PipeEnv) (fs : FS) (s : DocumentState) (out : FinalizeOutcome),
      finalize_file_task env fs s = .ok out →
      out.state.destination_path = s.destination_path ∨
        out.state.destination_path =
          some (rootDirOf s ++ "/" ++ finalizeLabel s ++ "/" ++ pathName s.path)) := by
  refine ⟨safe_label_idem, fun x => ⟨safe_label_ne_empty x, fun c hc => safe_label_chars hc⟩,
    fun s => ⟨safe_label_ne_empty _, fun c hc => safe_label_chars hc⟩, ?_⟩
  intro env fs s out h
  unfold finalize_file_task at h
  split at h
  · exact absurd h (by simp)
  · split at h
    · injection h with h'
      subst h'
      left
      rfl
    · injection h with h'
      subst h'
      left
      rfl
    · injection h with h'
      subst h'
      right
      rfl

/-- The outcome `finalize_file_task` produces on the all-success
environment, the concrete filesystem and the fresh label-less state. -/
def outC10 : FinalizeOutcome :=
  match finalize_file_task envAllOk fsA stA with
  | .ok out => out
  | .error _ => ⟨stA, fsA, false, false⟩

/-- Witness for C10's finalize conjunct: a state with a missing label is
filed under `pdfs/Uncategorized/`. -/
theorem C10_safe_label_idempotent_closed_witness :
    (outC10.state.destination_path = stA.destination_path ∨
      outC10.state.destination_path =
        some (rootDirOf stA ++ "/" ++ finalizeLabel stA ++ "/" ++ pathName stA.path)) ∧
    finalizeLabel stA = "Uncategorized" :=
  ⟨C10_safe_label_idempotent_closed.2.2.2 envAllOk fsA stA outC10 rfl,
   by decide⟩

/-! ### Helper lemmas about the finalize stage -/

/-- The error messages `finalize_file_task` appends, by case over the
outcomes of its guarded operations. -/
def finalizeErrsOf (env : PipeEnv) (fs : FS) (state : DocumentState) : List String :=
  match fs state.path, env.copy with
  | none, _ => [copyErrMsg state.path (destPathOf state) "FileNotFoundError"]
  | some _, .error e => [copyErrMsg state.path (destPathOf state) e]
  | some _, .ok _ =>
    (match state.doc_type, env.rewriteMeta with
     | .pdf, .error e => [rewriteErrMsg (destPathOf state) e]
     | _, _ => []) ++
    (match env.mkdirProcessed with
     | .error e => [moveErrMsg state.path e]
     | .ok _ =>
       match env.move with
       | .error e => [moveErrMsg state.path e]
       | .ok _ => [])

/-- Whenever the unguarded category-`mkdir` succeeds, `finalize_file_task`
returns normally and appends exactly the messages of its failed guarded
operations. -/
lemma finalize_ok_errors (env : PipeEnv) (fs : FS) (s : DocumentState)
    (hmk : env.mkdirCategory = .ok ()) :
    ∃ out, finalize_file_task env fs s = .ok out ∧
      out.state.errors = s.errors ++ finalizeErrsOf env fs s := by
  unfold finalize_file_task finalizeErrsOf
  rw [hmk]
  cases hfsv : fs s.path with
  | none => exact ⟨_, rfl, rfl⟩
  | some c =>
    cases hcopy : env.copy with
    | error e => exact ⟨_, rfl, rfl⟩
    | ok u =>
      cases u
      cases hdt : s.doc_type <;> cases hrw : env.rewriteMeta <;>
        cases hmp : env.mkdirProcessed <;> cases hmv : env.move <;>
        exact ⟨_, rfl, by simp⟩

/-- On the copy-success path (and a destination distinct from the source
path), `finalize_file_task` records the destination and the destination
file exists afterwards, whatever the rewrite/move outcomes. -/
lemma finalize_success_spec (env : PipeEnv) (fs : FS) (s : DocumentState)
    (c : Content) (hmk : env.mkdirCategory = .ok ())
    (hfsv : fs s.path = some c) (hcopy : env.copy = .ok ())
    (hne : destPathOf s ≠ s.path) :
    ∃ out, finalize_file_task env fs s = .ok out ∧
      out.state.destination_path = some (destPathOf s) ∧
      (out.fs (destPathOf s)).isSome = true := by
  have hne2 : s.path ≠ destPathOf s := fun h => hne h.symm
  unfold finalize_file_task
  rw [hmk, hfsv, hcopy]
  cases hdt : s.doc_type <;> cases hrw : env.rewriteMeta <;>
    cases hmp : env.mkdirProcessed <;> cases hmv : env.move <;>
    refine ⟨_, rfl, rfl, ?_⟩ <;>
    simp only [fsUpdate] <;>
    split_ifs <;> simp_all

/-! ### C2: a finalization copy failure -/

/-- C2: if the copy to the destination fails, the error is appended, the
`destination_path` stays unset, the filesystem (in particular the source
file) is untouched, the move is not attempted, and the stage returns
normally rather than propagating the failure. -/
theorem C2_copy_failure_aborts_finalize :
    ∀ (env : PipeEnv) (fs : FS) (state : DocumentState) (e : String) (c : Content),
      env.mkdirCategory = .ok () →
      fs state.path = some c →
      env.copy = .error e →
      state.destination_path = none →
      ∃ out, finalize_file_task env fs state = .ok out ∧
        out.state.errors = state.errors ++
          [copyErrMsg state.path (destPathOf state) e] ∧
        out.state.destination_path = none ∧
        out.fs = fs ∧
        out.fs state.path = some c ∧
        out.moveAttempted = false ∧
        out.rewriteAttempted = false := by
  intro env fs state e c hmk hfs hcopy hdest
  refine ⟨⟨{ state with errors := state.errors ++
      [copyErrMsg state.path (destPathOf state) e] }, fs, false, false⟩,
    ?_, rfl, hdest, rfl, hfs, rfl, rfl⟩
  unfold finalize_file_task
  rw [hmk, hfs, hcopy]

/-- A copy failure environment. -/
def envC2 : PipeEnv := { envAllOk with copy := .error "disk full" }

/-- Witness for C2 at a concrete state, filesystem and failing copy. -/
theorem C2_copy_failure_aborts_finalize_witness :
    ∃ out, finalize_file_task envC2 fsA stA = .ok out ∧
      out.state.errors = stA.errors ++
        [copyErrMsg stA.path (destPathOf stA) "disk full"] ∧
      out.state.destination_path = none ∧
      out.fs = fsA ∧
      out.fs stA.path = some "PDFBYTES" ∧
      out.moveAttempted = false ∧
      out.rewriteAttempted = false :=
  C2_copy_failure_aborts_finalize envC2 fsA stA "disk full" "PDFBYTES"
    rfl rfl rfl rfl

/-! ### C3: destination_path is a durability marker -/

/-- C3: across every pipeline operation, `destination_path` is only ever
set by a successful finalization copy: the extract and inference stages
preserve it; any normal finalize outcome either leaves it unset or sets it
to the destination with the copied file present at that path; and on the
copy-success path the destination is recorded and the destination file
exists regardless of a metadata-rewrite or move-to-processed failure. -/
theorem C3_destination_path_invariant :
    (∀ (env : PipeEnv) (s : DocumentState),
      (extract_text_task env s).destination_path = s.destination_path) ∧
    (∀ (env : PipeEnv) (s : DocumentState),
      (infer_metadata_and_classify_task env s).destination_path =
        s.destination_path) ∧
    (∀ (env : PipeEnv) (fs : FS) (s : DocumentState) (out : FinalizeOutcome),
      destPathOf s ≠ s.path →
      s.destination_path = none →
      finalize_file_task env fs s = .ok out →
      out.state.destination_path = none ∨
        (out.state.destination_path = some (destPathOf s) ∧
          (out.fs (destPathOf s)).isSome = true)) ∧
    (∀ (env : PipeEnv) (fs : FS) (s : DocumentState) (c : Content),
      env.mkdirCategory = .ok () → fs s.path = some c → env.copy = .ok () →
      destPathOf s ≠ s.path →
      ∃ out, finalize_file_task env fs s = .ok out ∧
        out.state.destination_path = some (destPathOf s) ∧
        (out.fs (destPathOf s)).isSome = true) := by
  refine ⟨?_, ?_, ?_, ?_⟩
  · intro env s
    cases hdt : s.doc_type
    · cases hx : env.pdfExtract <;> simp [extract_text_task, hdt, hx]
    · cases hx : env.ebookExtract <;> simp [extract_text_task, hdt, hx]
  · intro env s
    cases hm : env.inferMetadata <;> cases hc : env.classify <;>
      simp [infer_metadata_and_classify_task, hm, hc]
  · intro env fs s out hne hd0 h
    cases hmk : env.mkdirCategory with
    | error e =>
      unfold finalize_file_task at h
      rw [hmk] at h
      simp at h
    | ok u =>
      cases u
      cases hfsv : fs s.path with
      | none =>
        unfold finalize_file_task at h
        rw [hmk, hfsv] at h
        injection h with h'
        subst h'
        left
        exact hd0
      | some c =>
        cases hcopy : env.copy with
        | error e =>
          unfold finalize_file_task at h
          rw [hmk, hfsv, hcopy] at h
          injection h with h'
          subst h'
          left
          exact hd0
        | ok u2 =>
          cases u2
          obtain ⟨out', heq', hdest', hsome'⟩ :=
            finalize_success_spec env fs s c hmk hfsv hcopy hne
          have hout : out' = out := by
            have := heq'.symm.trans h
            exact Except.ok.inj this
          subst hout
          right
          exact ⟨hdest', hsome'⟩
  · intro env fs s c hmk hfsv hcopy hne
    exact finalize_success_spec env fs s c hmk hfsv hcopy hne

/-- Witness for C3: the concrete all-success run records
`pdfs/Uncategorized/a.pdf` and the copied file exists there, and the two
earlier stages preserve `destination_path` on the concrete state. -/
theorem C3_destination_path_invariant_witness :
    (extract_text_task envAllOk stA).destination_path = stA.destination_path ∧
    (infer_metadata_and_classify_task envAllOk stA).destination_path =
      stA.destination_path ∧
    ∃ out, finalize_file_task envAllOk fsA stA = .ok out ∧
      out.state.destination_path = some (destPathOf stA) ∧
      (out.fs (destPathOf stA)).isSome = true :=
  ⟨C3_destination_path_invariant.1 envAllOk stA,
   C3_destination_path_invariant.2.1 envAllOk stA,
   C3_destination_path_invariant.2.2.2 envAllOk fsA stA "PDFBYTES"
     rfl rfl rfl (by decide)⟩

/-! ### C5: finalize ignores the canonical working path -/

/-- A PDF state whose extraction went through OCR: the canonical working
path recorded by the extract stage is the OCR'd temp copy. -/
def stC5 : DocumentState :=
  { path := "inbox/book.pdf", doc_type := DocType.pdf, config := cfg0,
    classification := some { label := some "Math" },
    working_pdf_path := some "/tmp/tmp1.ocr.pdf" }

/-- Filesystem with distinct bytes at the original and at the OCR'd temp
copy. -/
def fsC5 : FS := fun q =>
  if q = "inbox/book.pdf" then some "ORIGINAL-BYTES"
  else if q = "/tmp/tmp1.ocr.pdf" then some "OCR-BYTES" else none

/-- Environment where the metadata rewrite fails (leaving the shipped bytes
untouched and observable) and everything else succeeds. -/
def envC5 : PipeEnv := { envAllOk with rewriteMeta := .error "stirling down" }

/-- The outcome `finalize_file_task` produces at the failing input. -/
def outC5 : FinalizeOutcome :=
  match finalize_file_task envC5 fsC5 stC5 with
  | .ok out => out
  | .error _ => ⟨stC5, fsC5, false, false⟩

/-- C5, evaluated at the failing input: `finalize_file_task` copies
`state["path"]` — the original, possibly image-only PDF — to the
destination and never reads `working_pdf_path`, so the file shipped to the
destination carries the original's bytes, not the canonical OCR'd copy's
bytes.  (The metadata rewrite does target the destination file, but that
file is not a copy of the canonical path.) -/
theorem C5_finalize_ships_original_not_canonical :
    finalize_file_task envC5 fsC5 stC5 = .ok outC5 ∧
    outC5.fs (destPathOf stC5) = some "ORIGINAL-BYTES" ∧
    outC5.state.destination_path = some (destPathOf stC5) ∧
    stC5.working_pdf_path = some "/tmp/tmp1.ocr.pdf" ∧
    fsC5 "/tmp/tmp1.ocr.pdf" = some "OCR-BYTES" ∧
    ("ORIGINAL-BYTES" : String) ≠ "OCR-BYTES" :=
  ⟨rfl, by decide, by decide, rfl, rfl, by decide⟩

/-! ### C4: stage-boundary error handling -/

/-- An environment whose category-directory creation fails (for instance, a
plain file occupies the category path: `mkdir(parents=True, exist_ok=True)`
still raises on a non-directory). -/
def envC4 : PipeEnv :=
  { envAllOk with mkdirCategory := .error "FileExistsError: pdfs/Uncategorized" }

/-- Counterexample to C4: `category_dir.mkdir` (workflow.py line 140) runs
inside `finalize_file_task` but before any `try`, so its failure escapes
the stage as an exception instead of being appended to the errors list. -/
theorem C4_counterexample :
    finalize_file_task envC4 fsA stA =
      .error "FileExistsError: pdfs/Uncategorized" := rfl

/-- The error messages `extract_text_task` appends, by case over the
extraction outcome. -/
def extractErrsOf (env : PipeEnv) (state : DocumentState) : List String :=
  match state.doc_type with
  | .pdf =>
    match env.pdfExtract with
    | .ok _ => []
    | .error e => [extractErrMsg state.path e]
  | .ebook =>
    match env.ebookExtract with
    | .ok _ => []
    | .error e => [extractErrMsg state.path e]

/-- The error messages `infer_metadata_and_classify_task` appends, by case
over the two LLM call outcomes. -/
def inferErrsOf (env : PipeEnv) (state : DocumentState) : List String :=
  (match env.inferMetadata with
   | .ok _ => []
   | .error e => [inferErrMsg state.path e]) ++
  (match env.classify with
   | .ok _ => []
   | .error e => [classifyErrMsg state.path e])

lemma extract_task_errors (env : PipeEnv) (s : DocumentState) :
    (extract_text_task env s).errors = s.errors ++ extractErrsOf env s := by
  cases hdt : s.doc_type
  · cases hx : env.pdfExtract <;> simp [extract_text_task, extractErrsOf, hdt, hx]
  · cases hx : env.ebookExtract <;> simp [extract_text_task, extractErrsOf, hdt, hx]

lemma infer_task_errors (env : PipeEnv) (s : DocumentState) :
    (infer_metadata_and_classify_task env s).errors =
      s.errors ++ inferErrsOf env s := by
  cases hm : env.inferMetadata <;> cases hc : env.classify <;>
    simp [infer_metadata_and_classify_task, inferErrsOf, hm, hc]

lemma process_document_eq (env : PipeEnv) (fs : FS) (state : DocumentState) :
    process_document env fs state =
      (finalize_file_task env fs
        (infer_metadata_and_classify_task env (extract_text_task env state))).map
        (fun out => (out.state, out.fs)) := by
  unfold process_document
  simp only [runStages, runStage]
  cases hfin : finalize_file_task env fs
      (infer_metadata_and_classify_task env (extract_text_task env state)) <;>
    simp [hfin, Except.map]

/-- C4 amended: every exception raised inside a stage's `try` blocks — the
extraction call, each of the two LLM calls, the copy, the metadata rewrite
and the move-to-processed — is caught at the stage boundary and appended to
the errors list, the orchestrator proceeds through all three stages, and a
completed run carries every accumulated message; however, the
category-directory creation in finalize runs before any `try`, so its
failure escapes the stage (see the counterexample), and the conjuncts below
therefore assume it succeeds. -/
theorem C4_amended_guarded_errors_accumulate :
    ∀ (env : PipeEnv) (fs : FS) (state : DocumentState),
      ((extract_text_task env state).errors =
        state.errors ++ extractErrsOf env state) ∧
      ((infer_metadata_and_classify_task env state).errors =
        state.errors ++ inferErrsOf env state) ∧
      (env.mkdirCategory = .ok () →
        ∃ out, finalize_file_task env fs state = .ok out ∧
          out.state.errors = state.errors ++ finalizeErrsOf env fs state) ∧
      (env.mkdirCategory = .ok () →
        ∃ res, process_document env fs state = .ok res ∧
          res.1.errors =
            state.errors ++ extractErrsOf env state ++
              inferErrsOf env (extract_text_task env state) ++
              finalizeErrsOf env fs
                (infer_metadata_and_classify_task env
                  (extract_text_task env state))) := by
  intro env fs state
  refine ⟨extract_task_errors env state, infer_task_errors env state,
    fun hmk => finalize_ok_errors env fs state hmk, fun hmk => ?_⟩
  obtain ⟨out, hfin, herr⟩ :=
    finalize_ok_errors env fs
      (infer_metadata_and_classify_task env (extract_text_task env state)) hmk
  refine ⟨(out.state, out.fs), ?_, ?_⟩
  · rw [process_document_eq, hfin]
    rfl
  · rw [herr, infer_task_errors, extract_task_errors]

/-- Witness for C4 amended, on the all-success environment: the full
pipeline completes and accumulates no error message. -/
theorem C4_amended_guarded_errors_accumulate_witness :
    ((extract_text_task envAllOk stA).errors =
      stA.errors ++ extractErrsOf envAllOk stA) ∧
    ∃ res, process_document envAllOk fsA stA = .ok res ∧
      res.1.errors =
        stA.errors ++ extractErrsOf envAllOk stA ++
          inferErrsOf envAllOk (extract_text_task envAllOk stA) ++
          finalizeErrsOf envAllOk fsA
            (infer_metadata_and_classify_task envAllOk
              (extract_text_task envAllOk stA)) :=
  ⟨(C4_amended_guarded_errors_accumulate envAllOk fsA stA).1,
   (C4_amended_guarded_errors_accumulate envAllOk fsA stA).2.2.2 rfl⟩

/-! ### C1: resume never re-executes a checkpointed stage -/

lemma runStages_trace_subset (env : PipeEnv) :
    ∀ (l : List Stage) (sfs : DocumentState × FS) (s : Stage),
      s ∈ (runStages env l sfs).2 → s ∈ l := by
  intro l
  induction l with
  | nil =>
    intro sfs s h
    simp [runStages] at h
  | cons st rest ih =>
    intro sfs s h
    rw [runStages] at h
    cases hr : runStage env st sfs with
    | error e =>
      rw [hr] at h
      simp at h
      simp [h]
    | ok sfs' =>
      rw [hr] at h
      simp at h
      rcases h with h1 | h1
      · simp [h1]
      · exact List.mem_cons_of_mem _ (ih sfs' s h1)

/-- C1: re-invoking the pipeline with the same document identifier after an
interruption starts from the checkpointed snapshot and executes only the
remaining stages: no stage whose completion was already checkpointed is
executed a second time. -/
theorem C1_resume_skips_checkpointed_stages :
    ∀ (env : PipeEnv) (fs : FS) (cp : Option CheckpointRecord)
      (state0 : DocumentState) (s : Stage),
      s ∈ completedStages cp →
      s ∉ (process_document_resumed env fs cp state0).2 := by
  intro env fs cp state0 s hmem hcontra
  have hrem : s ∈ remainingStages cp := by
    unfold process_document_resumed at hcontra
    exact runStages_trace_subset env (remainingStages cp) _ s hcontra
  rcases cp with _ | ⟨st, snap⟩
  · simp [completedStages] at hmem
  · cases st <;> simp_all [completedStages, remainingStages]

/-- A checkpoint recording that the extract stage already completed. -/
def cpC1 : Option CheckpointRecord := some ⟨Stage.extract, stA⟩

/-- Witness for C1: with the extract stage checkpointed complete, the
resumed run does not execute extract again. -/
theorem C1_resume_skips_checkpointed_stages_witness :
    Stage.extract ∈ completedStages cpC1 ∧
      Stage.extract ∉ (process_document_resumed envAllOk fsA cpC1 stA).2 :=
  ⟨by decide,
   C1_resume_skips_checkpointed_stages envAllOk fsA cpC1 stA Stage.extract
     (by decide)⟩

end Bookshelf
